import Mathlib

/-!
Verification development for the caelisco/http-client request execution
pipeline (v2 client: `doRequest`, `prepareRequest`, `compressData`,
`processResponse` in the client package; `Option` and its methods in the
options package; `Response.PopulateResponse` in the response package;
`normaliseURL`).

Strings are embedded as `List Char` (`Str`), mirroring Go string values;
Go's byte-level operations on the ASCII data used here agree with the
character-level model.  External collaborators (net/url parsing and
reference resolution, the compression codecs, the file system, identifier
generation) are parameters of the model, bundled in `Collab`; the model's
own definitions are translated from the repository's source.
-/

namespace HttpClient

/-- Go `string` values, embedded as lists of characters. -/
abbrev Str := List Char

/-- Whitespace predicate used by `strings.TrimSpace` (`unicode.IsSpace`),
modelled on its Latin-1 range: space, `\t`–`\r`, NEL (U+0085), NBSP (U+00A0). -/
def goIsSpace (c : Char) : Bool :=
  (c.toNat == 32) || (decide (9 ≤ c.toNat) && decide (c.toNat ≤ 13)) ||
    (c.toNat == 133) || (c.toNat == 160)

/-- Go `strings.TrimSpace`: drop leading and trailing whitespace. -/
def goTrimSpace (s : Str) : Str :=
  ((s.dropWhile goIsSpace).reverse.dropWhile goIsSpace).reverse

/-- Go `strings.HasPrefix`. -/
def goStarts : Str → Str → Bool
  | _, [] => true
  | [], _ :: _ => false
  | c :: s, p :: ps => (c == p) && goStarts s ps

/-- Go `strings.TrimPrefix`: drop `p` from the front of `s` when present. -/
def goTrimLead (s p : Str) : Str :=
  if goStarts s p then s.drop p.length else s

/-- Go `strings.Contains`: substring search. -/
def goSubstr : Str → Str → Bool
  | [], p => p.isEmpty
  | c :: t, p => goStarts (c :: t) p || goSubstr t p

/-- Errors surfaced by `normaliseURL`. -/
inductive NormErr
  | missingSlashes   -- "invalid URL format: missing // after scheme"
  | parseFail        -- net/url.Parse rejected the final string
deriving DecidableEq, Repr

/-- `normaliseURL(url, protocolScheme)` from `normalise_url.go`.
`parseOk` models the external `net/url.Parse` success predicate. -/
def normaliseURL (parseOk : Str → Bool) (url0 scheme : Str) : Except NormErr Str :=
  let url := goTrimSpace url0
  if goSubstr url ([':']) && !goSubstr url ([':', '/', '/']) then
    .error .missingSlashes
  else
    let url :=
      if scheme ≠ [] then
        let url := goTrimLead url ("http://".toList)
        let url := goTrimLead url ("https://".toList)
        let scheme := if !goSubstr scheme ([':', '/', '/']) then scheme ++ ([':', '/', '/']) else scheme
        if !goStarts url scheme then scheme ++ url else url
      else
        if !goStarts url ("http://".toList) && !goStarts url ("https://".toList) then
          "https://".toList ++ url
        else url
    if parseOk url then .ok url else .error .parseFail

/-! ## Payload sources, streams, files -/

/-- An `*os.File` handle: its name and current read offset.  The backing
content is resolved through the file-system collaborator. -/
structure FileM where
  name : Str
  pos : Int
deriving DecidableEq, Repr

/-- A generic seekable byte stream (`io.Reader` + `io.Seeker`). -/
structure SeekStream where
  content : List Nat
  pos : Int
deriving DecidableEq, Repr

/-- `io.Seeker.Seek(offset, whence)`: 0 = SeekStart, 1 = SeekCurrent,
2 = SeekEnd.  Returns the stream with its new position, and that position. -/
def seek (s : SeekStream) (offset : Int) (whence : Nat) : SeekStream × Int :=
  let newPos := if whence == 0 then offset
                else if whence == 1 then s.pos + offset
                else (s.content.length : Int) + offset
  ({ s with pos := newPos }, newPos)

/-- The `io.Seeker` branch of `Option.CreatePayloadReader`: the size probe.
Each line mirrors one `Seek` call of the source. -/
def probeSeek (s : SeekStream) : SeekStream × Int :=
  let (s, _) := seek s 0 0            -- seeker.Seek(0, io.SeekStart)
  let (s, currentPos) := seek s 0 1   -- currentPos, _ := seeker.Seek(0, io.SeekCurrent)
  let (s, size) := seek s 0 2         -- size, _ = seeker.Seek(0, io.SeekEnd)
  let (s, _) := seek s currentPos 0   -- seeker.Seek(currentPos, io.SeekStart)
  (s, size)

/-- The payload value handed to `doRequest` (`any` in Go), as a closed sum
over the shapes the pipeline distinguishes. -/
inductive PayloadM
  | none                          -- nil
  | bytes (data : List Nat)       -- []byte
  | buffer (data : List Nat)      -- *bytes.Buffer
  | text (s : Str)                -- string
  | file (f : FileM)              -- *os.File
  | stream (s : SeekStream)       -- any other io.Reader implementing io.Seeker
  | unsupported                   -- any other type
deriving DecidableEq, Repr

/-- The reader produced by `Option.CreatePayloadReader`. -/
inductive ReaderM
  | fromBytes (data : List Nat)   -- bytes.NewReader
  | fromBuffer (data : List Nat)  -- a *bytes.Buffer used directly as io.Reader
  | fromText (s : Str)            -- strings.NewReader
  | fromFile (f : FileM)
  | fromStream (s : SeekStream)
deriving DecidableEq, Repr

/-! ## Collaborators -/

/-- External collaborators of the pipeline: net/url parsing and reference
resolution, the compression codecs (compress/gzip, compress/zlib, brotli),
the file system, and the identifier generator.  The pipeline treats all of
them as opaque functions. -/
structure Collab where
  parseOk : Str → Bool                 -- net/url.Parse succeeds
  resolveRef : Str → Str → Str         -- base.ResolveReference(location).String()
  gzipC : List Nat → List Nat
  deflateC : List Nat → List Nat
  brotliC : List Nat → List Nat
  gzipD : List Nat → List Nat
  deflateD : List Nat → List Nat
  brotliD : List Nat → List Nat
  fs : Str → Option (List Nat)         -- os.Open / os.Stat: filename to content
  genId : Str                          -- Option.GenerateIdentifier output

/-- Stand-in byte encoding of a string payload (Go reads its UTF-8 bytes);
any injective character encoding supports the round-trip facts proved here. -/
def strBytes (s : Str) : List Nat := s.map Char.toNat

/-! ## The Option configuration struct (options package) -/

/-- The fields of `options.Option` that the request pipeline reads or
writes.  Logging, the http.Client/Transport handles, cookies, buffer sizes
and the progress callbacks are I/O-side collaborators that do not alter the
data flow modelled here and are omitted. -/
structure OptM where
  initialised : Bool := false
  filename : Str := []
  file : Option FileM := Option.none
  filesize : Int := 0
  header : List (Str × Str) := []
  protocolScheme : Str := []
  compression : Str := []
  customCompressionType : Str := []
  customCompressor : Option (List Nat → List Nat) := Option.none
  customDecompressor : Option (List Nat → List Nat) := Option.none
  followRedirects : Bool := false
  preserveMethodOnRedirect : Bool := false
  maxRedirects : Int := 0
  currRedirect : Int := 0
  idType : Str := []
  writerType : Str := []
  writerPath : Str := []

/-- `http.Header.Set` (used by `Option.AddHeader`): replace in place or append. -/
def setH : List (Str × Str) → Str → Str → List (Str × Str)
  | [], k, v => [(k, v)]
  | (k', v') :: t, k, v => if k' == k then (k, v) :: t else (k', v') :: setH t k v

/-- `http.Header.Del`. -/
def delH (h : List (Str × Str)) (k : Str) : List (Str × Str) :=
  h.filter (fun p => !(p.1 == k))

/-- `http.Header.Get`: empty string when the key is absent. -/
def headerGet (h : List (Str × Str)) (k : Str) : Str :=
  match h.find? (fun p => p.1 == k) with
  | some p => p.2
  | Option.none => []

/-- `Option.AddHeader` (which calls `Header.Set`). -/
def addHeader (opt : OptM) (k v : Str) : OptM :=
  { opt with header := setH opt.header k v }

/-- `options.defaultOption()`, restricted to the modelled fields.  The
private `currRedirect` counter is the Go zero value 0. -/
def defaultOption : OptM :=
  { initialised := true
    header := []
    compression := []
    followRedirects := false
    preserveMethodOnRedirect := false
    maxRedirects := 10
    idType := "ulid".toList
    writerType := "buffer".toList
    writerPath := [] }

/-- `Option.Merge(src)`: source values win; string fields only when
non-empty, function hooks only when present; `FollowRedirects`,
`PreserveMethodOnRedirect` and `MaxRedirects` unconditionally.  The private
fields (`currRedirect`, file state, `initialised`) are not merged. -/
def mergeOpt (opt src : OptM) : OptM :=
  { opt with
    header := src.header.foldl (fun h kv => setH h kv.1 kv.2) opt.header
    followRedirects := src.followRedirects
    preserveMethodOnRedirect := src.preserveMethodOnRedirect
    maxRedirects := src.maxRedirects
    writerType := if src.writerType ≠ [] then src.writerType else opt.writerType
    writerPath := if src.writerType ≠ [] then src.writerPath else opt.writerPath
    protocolScheme := if src.protocolScheme ≠ [] then src.protocolScheme else opt.protocolScheme
    compression := if src.compression ≠ [] then src.compression else opt.compression
    customCompressionType := if src.customCompressionType ≠ [] then src.customCompressionType else opt.customCompressionType
    customCompressor := if src.customCompressor.isSome then src.customCompressor else opt.customCompressor
    customDecompressor := if src.customDecompressor.isSome then src.customDecompressor else opt.customDecompressor
    idType := if src.idType ≠ [] then src.idType else opt.idType }

/-- `options.New(opts...)`: an initialised option passes through unchanged;
an uninitialised one is merged over a fresh default. -/
def optionsNew (opts : List OptM) : OptM :=
  match opts with
  | [] => defaultOption
  | o :: _ => if o.initialised then o else mergeOpt defaultOption o

/-- `Option.SetFile`: record the handle, its name, and its stat-size. -/
def setFile (C : Collab) (opt : OptM) (f : FileM) : OptM :=
  { opt with file := some f, filename := f.name
             filesize := (((C.fs f.name).getD []).length : Int) }

/-- `Option.ReopenFile`: `opt.file, err = os.Open(opt.filename)` — a fresh
handle at offset 0 on success, nil on failure (the caller discards `err`). -/
def reopenFile (C : Collab) (opt : OptM) : OptM :=
  { opt with file := (C.fs opt.filename).map (fun _ => { name := opt.filename, pos := 0 }) }

/-- A file handle viewed as a seekable stream over its backing content. -/
def fileAsStream (C : Collab) (f : FileM) : SeekStream :=
  { content := (C.fs f.name).getD [], pos := f.pos }

/-- `Option.CreatePayloadReader`: payload value to (reader, size); the
`io.Reader` type-switch case covers buffers (not seekable, size −1) and
files/streams (seekable, probed via `probeSeek`). -/
def createPayloadReader (C : Collab) (p : PayloadM) : Except Str (Option ReaderM × Int) :=
  match p with
  | .none => .ok (Option.none, -1)
  | .bytes d => .ok (some (.fromBytes d), (d.length : Int))
  | .buffer d => .ok (some (.fromBuffer d), -1)
  | .file f =>
      let (s, size) := probeSeek (fileAsStream C f)
      .ok (some (.fromFile { name := f.name, pos := s.pos }), size)
  | .stream s =>
      let (s, size) := probeSeek s
      .ok (some (.fromStream s), size)
  | .text s => .ok (some (.fromText s), (s.length : Int))
  | .unsupported => .error ("unsupported payload type".toList)

/-- Draining a reader to its end (what the transport or an `io.Copy` does). -/
def readAll (C : Collab) : ReaderM → List Nat
  | .fromBytes d => d
  | .fromBuffer d => d
  | .fromText s => strBytes s
  | .fromFile f => ((C.fs f.name).getD []).drop f.pos.toNat
  | .fromStream s => s.content.drop s.pos.toNat

/-- `Option.GetCompressor`: the compressor for the configured algorithm, or
a construction error.  `CompressionNone` yields a nil compressor. -/
def getCompressor (C : Collab) (opt : OptM) : Except Str (Option (List Nat → List Nat)) :=
  if opt.compression == "gzip".toList then .ok (some C.gzipC)
  else if opt.compression == "deflate".toList then .ok (some C.deflateC)
  else if opt.compression == "br".toList then .ok (some C.brotliC)
  else if opt.compression == "custom".toList then
    match opt.customCompressor with
    | Option.none => .error ("custom compression specified but no compressor provided".toList)
    | some f => .ok (some f)
  else if opt.compression == ([] : Str) then .ok (Option.none)
  else .error ("unsupported compression type: ".toList ++ opt.compression)

/-- `compressData`: runs in the compression goroutine; a `GetCompressor`
failure closes the pipe with the "unsupported compression type" error, so
the pipe's reader observes that error.  The nil-compressor case would be a
nil-dereference panic in Go and is unreachable behind the
`opt.Compression != CompressionNone` guard of `prepareRequest`. -/
def compressData (C : Collab) (r : ReaderM) (opt : OptM) : Except Str (List Nat) :=
  match getCompressor C opt with
  | .error _ => .error ("unsupported compression type: ".toList ++ opt.compression)
  | .ok Option.none => .error ("nil compressor".toList)
  | .ok (some f) => .ok (f (readAll C r))

/-- `Option.GetDecompressor`: known encodings map to codecs, the empty
encoding passes through, anything else tries the custom hook then fails. -/
def getDecompressor (C : Collab) (opt : OptM) (body : List Nat) (encoding : Str) : Except Str (List Nat) :=
  if encoding == ([] : Str) then .ok body
  else if encoding == "gzip".toList then .ok (C.gzipD body)
  else if encoding == "deflate".toList then .ok (C.deflateD body)
  else if encoding == "br".toList then .ok (C.brotliD body)
  else
    match opt.customDecompressor with
    | some f => .ok (f body)
    | Option.none => .error ("unsupported compression type: ".toList ++ encoding)

/-- The response sink selected by `Option.InitialiseWriter`. -/
inductive WriterM
  | toBuffer
  | toFile (path : Str)
deriving DecidableEq, Repr

/-- `Option.InitialiseWriter`: file mode requires a path, buffer mode
forbids one, anything else is an invalid writer type. -/
def initialiseWriter (opt : OptM) : Except Str WriterM :=
  if opt.writerType == "file".toList then
    if opt.writerPath.isEmpty then
      .error ("file path must be specified when using WriteToFile".toList)
    else .ok (.toFile opt.writerPath)
  else if opt.writerType == "buffer".toList then
    if !opt.writerPath.isEmpty then
      .error ("filepath should not be provided when using WriteToBuffer".toList)
    else .ok .toBuffer
  else .error ("invalid writer type".toList)

/-- The increment of a Go `int` (64-bit two's complement on the targeted
platforms): `math.MaxInt64` wraps to `math.MinInt64`, everything else is a
plain `+ 1`.  On the representable range this is exactly the semantics of
the source's `opt.currRedirect++`. -/
def int64Incr (n : Int) : Int :=
  if n = 9223372036854775807 then -9223372036854775808 else n + 1

/-- `Option.CheckRedirects`: increments the private counter (a wrapping
64-bit Go `int`) and fires on equality with `MaxRedirects`. -/
def checkRedirects (opt : OptM) : Bool × OptM :=
  let opt := { opt with currRedirect := int64Incr opt.currRedirect }
  (opt.currRedirect == opt.maxRedirects, opt)

/-! ## Requests, responses, errors -/

deriving instance DecidableEq for Except

/-- The request body handed to the transport: absent, a direct reader, or
the read side of the compression pipe (whose read result is the outcome of
the `compressData` goroutine). -/
inductive BodyM
  | empty
  | direct (r : ReaderM)
  | pipe (res : Except Str (List Nat))
deriving DecidableEq, Repr

/-- The assembled `*http.Request`. -/
structure ReqM where
  method : Str
  url : Str
  body : BodyM
  contentLength : Int
  header : List (Str × Str)
deriving Repr

/-- Errors surfaced by `http.Client.Do` in this pipeline: the
`CheckRedirect` closure's max-redirects error, or a request-body read
failure (e.g. the compression pipe closed with an error). -/
inductive DoErr
  | maxRedirectsExceeded (limit : Int)
  | bodyError (msg : Str)
deriving DecidableEq, Repr

/-- The rendered error text; `maxRedirectsExceeded` renders
`fmt.Errorf("max redirects (%d) exceeded", opt.MaxRedirects)`. -/
def DoErr.msg : DoErr → Str
  | .maxRedirectsExceeded n => "max redirects (".toList ++ (toString n).toList ++ ") exceeded".toList
  | .bodyError m => m

/-- The errors `doRequest` can return, by the program point that raises
them. -/
inductive ErrM
  | badURL (e : NormErr)          -- normaliseURL failed (before any request)
  | payloadReader (msg : Str)     -- CreatePayloadReader failed (before any request)
  | transport (e : DoErr)         -- client.Do failed
  | missingLocation               -- "redirect location header missing"
  | invalidRedirectURL            -- "invalid redirect URL"
  | decompressorInit (msg : Str)  -- "failed to create decompressed reader"
  | writerInit (msg : Str)        -- "failed to initialise writer"
deriving DecidableEq, Repr

/-- True exactly for the error kinds raised before the request is handed to
the transport (before any bytes can be sent). -/
def ErrM.beforeTransport : ErrM → Bool
  | .badURL _ => true
  | .payloadReader _ => true
  | _ => false

/-- The upstream `*http.Response` as far as the pipeline reads it. -/
structure SrvResp where
  statusCode : Int
  status : Str := []
  proto : Str := []
  header : List (Str × Str) := []
  transferEncoding : List Str := []
  uncompressed : Bool := false
  body : List Nat := []
deriving DecidableEq, Repr

/-- `response.Response`, restricted to its data fields (the wall-clock
timestamps, cookies and TLS metadata are I/O values outside the model). -/
structure RespM where
  url : Str
  method : Str
  requestPayload : PayloadM := PayloadM.none
  uniqueIdentifier : Str := []
  compressionType : Str := []
  status : Str := []
  statusCode : Int := 0
  proto : Str := []
  header : List (Str × Str) := []
  transferEncoding : List Str := []
  uncompressed : Bool := false
  redirected : Bool := false
  location : Str := []
  error : Option ErrM := Option.none
  body : List Nat := []
deriving DecidableEq, Repr

/-- `response.New(url, method, payload, opt)`. -/
def respNew (C : Collab) (url method : Str) (payload : PayloadM) (opt : OptM) : RespM :=
  { url := url, method := method, requestPayload := payload
    uniqueIdentifier := C.genId, compressionType := opt.compression }

/-- `Response.PopulateResponse(resp, start)`: copies the status line,
headers, transfer encoding and compression flag, then marks the record as
redirected when the byte length of `resp.Request.URL.String()` differs
from the byte length of the record's URL. -/
def populateResponse (r : RespM) (resp : SrvResp) (requestURL : Str) : RespM :=
  let r := { r with status := resp.status, statusCode := resp.statusCode
                    proto := resp.proto, header := resp.header
                    transferEncoding := resp.transferEncoding
                    uncompressed := resp.uncompressed }
  if requestURL.length ≠ r.url.length then
    { r with redirected := true, location := requestURL }
  else r

/-- `isRedirect` from the client package. -/
def isRedirect (statusCode : Int) : Bool :=
  (statusCode == 301) || (statusCode == 302) || (statusCode == 303) ||
    (statusCode == 307) || (statusCode == 308)

/-- Whether `http.NewRequest` recorded a `GetBody` for this body (it does
for byte/string readers), or the request has no body: Go's client only
treats a 307/308 as followable when the body can be replayed. -/
def bodyReplayable : BodyM → Bool
  | .empty => true
  | .direct (.fromBytes _) => true
  | .direct (.fromBuffer _) => true
  | .direct (.fromText _) => true
  | .direct (.fromFile _) => false
  | .direct (.fromStream _) => false
  | .pipe _ => false

/-- The transport drains the request body; a body backed by the shared file
handle leaves that handle at end-of-file (the consumption that forces
`ReopenFile` on a redirect replay). -/
def consumeBody (C : Collab) (opt : OptM) : BodyM → OptM
  | .direct (.fromFile f) =>
      match opt.file with
      | some g =>
          if g.name == f.name then
            { opt with file := some { g with pos := (((C.fs g.name).getD []).length : Int) } }
          else opt
      | Option.none => opt
  | _ => opt

/-- One `client.Do` call under the pipeline's `CheckRedirect` closure: a
failing body read aborts the call; a redirect response carrying a
`Location` (and, for 307/308, a replayable body) invokes the closure once —
incrementing the counter and failing on equality with `MaxRedirects` —
otherwise the response is returned as-is (`http.ErrUseLastResponse`). -/
def clientDo (C : Collab) (server : Str → SrvResp) (req : ReqM) (opt : OptM) :
    OptM × Except DoErr SrvResp :=
  match req.body with
  | .pipe (.error e) => (opt, .error (.bodyError e))
  | _ =>
    let opt := consumeBody C opt req.body
    let resp := server req.url
    let followable := isRedirect resp.statusCode
        && !(headerGet resp.header ("Location".toList)).isEmpty
        && ((resp.statusCode == 301) || (resp.statusCode == 302) || (resp.statusCode == 303)
            || bodyReplayable req.body)
    if followable then
      let (fired, opt) := checkRedirects opt
      if fired then (opt, .error (.maxRedirectsExceeded opt.maxRedirects))
      else (opt, .ok resp)
    else (opt, .ok resp)

/-- `prepareRequest(method, url, payloadReader, contentLength, opt)`: wires
the body, spawns `compressData` behind an `io.Pipe` when compression is
selected (updating the transfer/encoding headers), and sets the content
length for absent or uncompressed bodies.  The `ProgressReader` decorators
only invoke the progress callbacks (an I/O effect) and pass bytes through
unchanged, so they are omitted. -/
def prepareRequest (C : Collab) (method url : Str) (payloadReader : Option ReaderM)
    (contentLength : Int) (opt : OptM) : ReqM × OptM :=
  match payloadReader with
  | Option.none =>
    ({ method := method, url := url, body := .empty, contentLength := 0
       header := opt.header }, opt)
  | some r =>
    if opt.compression ≠ [] then
      let res := compressData C r opt
      let opt := { opt with header := setH opt.header ("Transfer-Encoding".toList) ("chunked".toList) }
      let opt := { opt with header := delH opt.header ("Content-Length".toList) }
      let opt := { opt with header :=
        (if opt.compression ≠ "custom".toList then
          setH opt.header ("Content-Encoding".toList) opt.compression
        else if opt.customCompressionType ≠ [] then
          setH opt.header ("Content-Encoding".toList) opt.customCompressionType
        else
          setH opt.header ("Content-Encoding".toList) ("application/octet-stream".toList)) }
      ({ method := method, url := url, body := .pipe res, contentLength := 0
         header := opt.header }, opt)
    else
      ({ method := method, url := url, body := .direct r, contentLength := contentLength
         header := opt.header }, opt)

/-- The result of one `doRequest` call: the `(response.Response, error)`
pair, or fuel exhaustion of the model (the source recursion has no bound). -/
inductive Outcome
  | ok (r : RespM)
  | err (r : RespM) (e : ErrM)
  | outOfFuel
deriving DecidableEq, Repr

/-- Did the call return a response with a nil error? -/
def Outcome.isOk : Outcome → Bool
  | .ok _ => true
  | _ => false

/-- The returned error, when there is one. -/
def Outcome.errOf : Outcome → Option ErrM
  | .err _ e => some e
  | _ => Option.none

/-- The header multimap of the returned response record. -/
def Outcome.hdrOf : Outcome → List (Str × Str)
  | .ok r => r.header
  | .err r _ => r.header
  | .outOfFuel => []

/-- The returned response record, when the call returned one. -/
def Outcome.respOf : Outcome → Option RespM
  | .ok r => some r
  | .err r _ => some r
  | .outOfFuel => Option.none

/-- `processResponse(r, resp, opt, startTime)`: decompress per the
response's Content-Encoding, initialise the configured sink, keep the body
in the record only for the buffer sink, then populate the record. -/
def processResponse (C : Collab) (hr : SrvResp) (requestURL : Str) (resp : RespM)
    (opt : OptM) : Outcome × OptM :=
  match getDecompressor C opt hr.body (headerGet hr.header ("Content-Encoding".toList)) with
  | .error m => (.err resp (.decompressorInit m), opt)
  | .ok data =>
    match initialiseWriter opt with
    | .error m => (.err resp (.writerInit m), opt)
    | .ok w =>
      let resp := match w with
                  | .toBuffer => { resp with body := data }
                  | .toFile _ => resp
      (.ok (populateResponse resp hr requestURL), opt)

/-! ## The redirect controller and the doRequest driver -/

/-- Methods that may carry a body (`POST`, `PUT`, `PATCH`). -/
def bodyMethod (method : Str) : Bool :=
  (method == "POST".toList) || (method == "PUT".toList) || (method == "PATCH".toList)

/-- The accepted-redirect block of `doRequest`: with method preservation, a
tracked file is reopened from its recorded filename (the next call pulls
the fresh handle from the options), byte/buffer/string payloads are
re-derived from their retained content, and anything else yields no
payload; without preservation the next hop is a GET with no payload.
Returns the (options, method, payload) for the next hop. -/
def followRedirectArgs (C : Collab) (opt : OptM) (method : Str) (payload : PayloadM) :
    OptM × Str × PayloadM :=
  if opt.preserveMethodOnRedirect then
    if opt.file.isSome then
      (reopenFile C opt, method, PayloadM.none)
    else
      let newPayload : PayloadM :=
        match payload with
        | .bytes d => .bytes d
        | .buffer d => .buffer d     -- bytes.NewBuffer(v.Bytes()): fresh buffer, same content
        | .text s => .text s
        | _ => PayloadM.none
      (opt, method, newPayload)
  else (opt, "GET".toList, PayloadM.none)

/-- The trace-identifier step of `doRequest`: when an identifier type is
configured, attach a generated identifier as the `X-TraceID` header. -/
def withTraceHeader (C : Collab) (opt : OptM) : OptM :=
  if opt.idType ≠ [] then addHeader opt ("X-TraceID".toList) C.genId else opt

/-- The payload-setup block of `doRequest`: only body-carrying methods
(POST/PUT/PATCH) take a payload; an `*os.File` payload is recorded in the
options, and a tracked file handle replaces the payload value. -/
def payloadSetup (C : Collab) (method : Str) (payload : PayloadM) (opt : OptM) :
    OptM × PayloadM :=
  if bodyMethod method then
    let opt := match payload with
               | .file f => setFile C opt f
               | _ => opt
    let payload := match opt.file with
                   | some f => PayloadM.file f
                   | Option.none => payload
    (opt, payload)
  else (opt, payload)

/-- The reader-creation block of `doRequest`: a reader is built only for a
body-carrying method with a non-nil payload, via `CreatePayloadReader`. -/
def mkPayloadReader (C : Collab) (method : Str) (payload : PayloadM) :
    Except Str (Option ReaderM × Int) :=
  if bodyMethod method then
    if payload ≠ PayloadM.none then createPayloadReader C payload
    else .ok (Option.none, 0)
  else .ok (Option.none, 0)

/-- The rest of `doRequest` after options initialisation, with the
recursive self-call abstracted as `rec`.  Follows the source line by line:
URL normalisation, response record creation, payload setup for
body-carrying methods, request preparation, the transport call, then the
redirect controller or final response processing. -/
def doReqBody (C : Collab) (server : Str → SrvResp)
    (rec : Str → Str → PayloadM → List OptM → Outcome × OptM)
    (method url0 : Str) (payload : PayloadM) (opt : OptM) : Outcome × OptM :=
  match normaliseURL C.parseOk url0 opt.protocolScheme with
  | .error e => (.err { url := [], method := [] } (.badURL e), opt)
  | .ok url =>
    let resp := respNew C url method payload opt
    let (opt, payload) := payloadSetup C method payload opt
    match mkPayloadReader C method payload with
    | .error m => (.err resp (.payloadReader m), opt)
    | .ok (payloadReader, contentLength) =>
      let (req, opt) := prepareRequest C method url payloadReader contentLength opt
      let (opt, dres) := clientDo C server req opt
      match dres with
      | .error e => (.err { resp with error := some (.transport e) } (.transport e), opt)
      | .ok hr =>
        if isRedirect hr.statusCode then
          if !opt.followRedirects then
            (.ok (populateResponse resp hr url), opt)
          else
            let redirectURL := headerGet hr.header ("Location".toList)
            if redirectURL.isEmpty then (.err resp .missingLocation, opt)
            else if !C.parseOk redirectURL then (.err resp .invalidRedirectURL, opt)
            else
              let nextURL := C.resolveRef url redirectURL
              let next := followRedirectArgs C opt method payload
              rec next.2.1 nextURL next.2.2 [next.1]
        else
          processResponse C hr url resp opt

/-- The body of `doRequest(method, url, payload, opts...)`: options
initialisation and the trace header, then `doReqBody`. -/
def doReqStep (C : Collab) (server : Str → SrvResp)
    (rec : Str → Str → PayloadM → List OptM → Outcome × OptM)
    (method url0 : Str) (payload : PayloadM) (opts : List OptM) : Outcome × OptM :=
  doReqBody C server rec method url0 payload (withTraceHeader C (optionsNew opts))

/-- `doRequest` with a fuel bound on the recursion depth (the source
recurses unboundedly; `Outcome.outOfFuel` marks a run that used up its
budget without terminating). -/
def doReq (C : Collab) (server : Str → SrvResp) :
    Nat → Str → Str → PayloadM → List OptM → Outcome × OptM
  | 0, _, _, _, opts => (.outOfFuel, optionsNew opts)
  | fuel + 1, method, url, payload, opts =>
      doReqStep C server (doReq C server fuel) method url payload opts

/-! ## Concrete collaborators and scenarios -/

/-- Collaborators for concrete runs: every string parses, `Location` values
are absolute (resolution returns them unchanged), the codecs are the
identity, the file system is empty, identifiers render as `"tid"`. -/
def trivialCollab : Collab :=
  { parseOk := fun _ => true
    resolveRef := fun _ loc => loc
    gzipC := id, deflateC := id, brotliC := id
    gzipD := id, deflateD := id, brotliD := id
    fs := fun _ => Option.none
    genId := "tid".toList }

/-- An endpoint that always 302-redirects to itself. -/
def selfServer : Str → SrvResp :=
  fun u => { statusCode := 302, header := [("Location".toList, u)] }

/-- An endpoint that always answers 200 with an empty body. -/
def okServer : Str → SrvResp := fun _ => { statusCode := 200 }

/-- The looping endpoint's URL. -/
def loopURL : Str := "https://loop.test".toList

/-! ## Claim scenario configurations -/

/-- The claim's predicate: some colon in the string is not immediately
followed by `//`. -/
def hasBareColon : Str → Bool
  | [] => false
  | c :: t => (c == ':' && !goStarts t (['/', '/'])) || hasBareColon t

/-- The custom-compression misconfiguration scenario. -/
def optC6 : OptM := { defaultOption with compression := "custom".toList }

/-- Following disabled with `MaxRedirects` set to 1. -/
def optC5 : OptM := { defaultOption with maxRedirects := 1 }

/-- A configuration with `MaxRedirects` 5 and following enabled (as via
`options.New()`, `SetMaxRedirects(5)`, `EnableRedirects()`). -/
def optC1 : OptM := { defaultOption with maxRedirects := 5, followRedirects := true }

/-- The option state during the limit-5 redirect chain: the trace header
has been attached and the counter holds `c`. -/
def famC1 (c : Int) : OptM :=
  { optC1 with header := [("X-TraceID".toList, "tid".toList)], currRedirect := c }

/-- The response record returned when the limit-5 chain fails. -/
def respC1err : RespM :=
  { respNew trivialCollab loopURL ("GET".toList) PayloadM.none optC1 with
    error := some (.transport (.maxRedirectsExceeded 5)) }

/-- A caller-supplied `Option` literal that enables following but leaves
`MaxRedirects` at its zero value, not built through `options.New()`. -/
def optC10 : OptM := { followRedirects := true }

/-- The state of the unbounded chain after the trace header is attached,
with counter `c`; its base is `optionsNew [optC10]`, i.e. the caller
struct merged over the defaults (so `MaxRedirects` is 0). -/
def famC10 (c : Int) : OptM :=
  { mergeOpt defaultOption optC10 with
    header := [("X-TraceID".toList, "tid".toList)], currRedirect := c }

/-- A fresh initialised configuration with following enabled
(`MaxRedirects` at its default 10). -/
def optC2 : OptM := { defaultOption with followRedirects := true }

/-! ## Field-preservation lemmas -/

@[simp] theorem addHeader_compression (opt : OptM) (k v : Str) :
    (addHeader opt k v).compression = opt.compression := rfl

@[simp] theorem addHeader_customCompressor (opt : OptM) (k v : Str) :
    (addHeader opt k v).customCompressor = opt.customCompressor := rfl

@[simp] theorem addHeader_customDecompressor (opt : OptM) (k v : Str) :
    (addHeader opt k v).customDecompressor = opt.customDecompressor := rfl

@[simp] theorem addHeader_file (opt : OptM) (k v : Str) :
    (addHeader opt k v).file = opt.file := rfl

@[simp] theorem addHeader_filename (opt : OptM) (k v : Str) :
    (addHeader opt k v).filename = opt.filename := rfl

@[simp] theorem addHeader_protocolScheme (opt : OptM) (k v : Str) :
    (addHeader opt k v).protocolScheme = opt.protocolScheme := rfl

@[simp] theorem addHeader_followRedirects (opt : OptM) (k v : Str) :
    (addHeader opt k v).followRedirects = opt.followRedirects := rfl

@[simp] theorem addHeader_preserveMethodOnRedirect (opt : OptM) (k v : Str) :
    (addHeader opt k v).preserveMethodOnRedirect = opt.preserveMethodOnRedirect := rfl

@[simp] theorem addHeader_maxRedirects (opt : OptM) (k v : Str) :
    (addHeader opt k v).maxRedirects = opt.maxRedirects := rfl

@[simp] theorem addHeader_currRedirect (opt : OptM) (k v : Str) :
    (addHeader opt k v).currRedirect = opt.currRedirect := rfl

@[simp] theorem addHeader_initialised (opt : OptM) (k v : Str) :
    (addHeader opt k v).initialised = opt.initialised := rfl

@[simp] theorem addHeader_idType (opt : OptM) (k v : Str) :
    (addHeader opt k v).idType = opt.idType := rfl

@[simp] theorem addHeader_writerType (opt : OptM) (k v : Str) :
    (addHeader opt k v).writerType = opt.writerType := rfl

@[simp] theorem addHeader_writerPath (opt : OptM) (k v : Str) :
    (addHeader opt k v).writerPath = opt.writerPath := rfl

@[simp] theorem withTraceHeader_compression (C : Collab) (opt : OptM) :
    (withTraceHeader C opt).compression = opt.compression := by
  unfold withTraceHeader; split <;> rfl

@[simp] theorem withTraceHeader_customCompressor (C : Collab) (opt : OptM) :
    (withTraceHeader C opt).customCompressor = opt.customCompressor := by
  unfold withTraceHeader; split <;> rfl

@[simp] theorem withTraceHeader_customDecompressor (C : Collab) (opt : OptM) :
    (withTraceHeader C opt).customDecompressor = opt.customDecompressor := by
  unfold withTraceHeader; split <;> rfl

@[simp] theorem withTraceHeader_file (C : Collab) (opt : OptM) :
    (withTraceHeader C opt).file = opt.file := by
  unfold withTraceHeader; split <;> rfl

@[simp] theorem withTraceHeader_filename (C : Collab) (opt : OptM) :
    (withTraceHeader C opt).filename = opt.filename := by
  unfold withTraceHeader; split <;> rfl

@[simp] theorem withTraceHeader_protocolScheme (C : Collab) (opt : OptM) :
    (withTraceHeader C opt).protocolScheme = opt.protocolScheme := by
  unfold withTraceHeader; split <;> rfl

@[simp] theorem withTraceHeader_followRedirects (C : Collab) (opt : OptM) :
    (withTraceHeader C opt).followRedirects = opt.followRedirects := by
  unfold withTraceHeader; split <;> rfl

@[simp] theorem withTraceHeader_preserveMethodOnRedirect (C : Collab) (opt : OptM) :
    (withTraceHeader C opt).preserveMethodOnRedirect = opt.preserveMethodOnRedirect := by
  unfold withTraceHeader; split <;> rfl

@[simp] theorem withTraceHeader_maxRedirects (C : Collab) (opt : OptM) :
    (withTraceHeader C opt).maxRedirects = opt.maxRedirects := by
  unfold withTraceHeader; split <;> rfl

@[simp] theorem withTraceHeader_currRedirect (C : Collab) (opt : OptM) :
    (withTraceHeader C opt).currRedirect = opt.currRedirect := by
  unfold withTraceHeader; split <;> rfl

@[simp] theorem withTraceHeader_initialised (C : Collab) (opt : OptM) :
    (withTraceHeader C opt).initialised = opt.initialised := by
  unfold withTraceHeader; split <;> rfl

@[simp] theorem withTraceHeader_writerType (C : Collab) (opt : OptM) :
    (withTraceHeader C opt).writerType = opt.writerType := by
  unfold withTraceHeader; split <;> rfl

@[simp] theorem withTraceHeader_writerPath (C : Collab) (opt : OptM) :
    (withTraceHeader C opt).writerPath = opt.writerPath := by
  unfold withTraceHeader; split <;> rfl

/-- `options.New` always yields an initialised configuration. -/
theorem optionsNew_initialised (opts : List OptM) : (optionsNew opts).initialised = true := by
  unfold optionsNew
  match opts with
  | [] => rfl
  | o :: t =>
      by_cases h : o.initialised = true <;> simp [h, mergeOpt, defaultOption]

@[simp] theorem consumeBody_followRedirects (C : Collab) (opt : OptM) (b : BodyM) :
    (consumeBody C opt b).followRedirects = opt.followRedirects := by
  unfold consumeBody
  split <;> (try split) <;> (try split) <;> rfl

@[simp] theorem consumeBody_preserveMethodOnRedirect (C : Collab) (opt : OptM) (b : BodyM) :
    (consumeBody C opt b).preserveMethodOnRedirect = opt.preserveMethodOnRedirect := by
  unfold consumeBody
  split <;> (try split) <;> (try split) <;> rfl

@[simp] theorem consumeBody_maxRedirects (C : Collab) (opt : OptM) (b : BodyM) :
    (consumeBody C opt b).maxRedirects = opt.maxRedirects := by
  unfold consumeBody
  split <;> (try split) <;> (try split) <;> rfl

@[simp] theorem consumeBody_currRedirect (C : Collab) (opt : OptM) (b : BodyM) :
    (consumeBody C opt b).currRedirect = opt.currRedirect := by
  unfold consumeBody
  split <;> (try split) <;> (try split) <;> rfl

@[simp] theorem consumeBody_initialised (C : Collab) (opt : OptM) (b : BodyM) :
    (consumeBody C opt b).initialised = opt.initialised := by
  unfold consumeBody
  split <;> (try split) <;> (try split) <;> rfl

@[simp] theorem checkRedirects_followRedirects (opt : OptM) :
    (checkRedirects opt).2.followRedirects = opt.followRedirects := rfl

@[simp] theorem checkRedirects_preserveMethodOnRedirect (opt : OptM) :
    (checkRedirects opt).2.preserveMethodOnRedirect = opt.preserveMethodOnRedirect := rfl

@[simp] theorem checkRedirects_maxRedirects (opt : OptM) :
    (checkRedirects opt).2.maxRedirects = opt.maxRedirects := rfl

@[simp] theorem checkRedirects_currRedirect (opt : OptM) :
    (checkRedirects opt).2.currRedirect = int64Incr opt.currRedirect := rfl

/-- Below the overflow boundary the wrapping increment is a plain `+ 1`. -/
theorem int64Incr_eq_add_one (c : Int) (h : c < 9223372036854775807) :
    int64Incr c = c + 1 := by
  unfold int64Incr
  split <;> omega

/-- A counter strictly below the maximum is at most the maximum after one
wrapping increment (a wrap can only land at the very bottom). -/
theorem int64Incr_le (c m : Int) (h : c < m) : int64Incr c ≤ m := by
  unfold int64Incr
  split <;> omega

/-- An increment from strictly below the maximum that does not land
exactly on the maximum stays strictly below it. -/
theorem int64Incr_lt (c m : Int) (h : c < m) (hne : int64Incr c ≠ m) :
    int64Incr c < m :=
  lt_of_le_of_ne (int64Incr_le c m h) hne

@[simp] theorem checkRedirects_initialised (opt : OptM) :
    (checkRedirects opt).2.initialised = opt.initialised := rfl

/-- The options state returned by `clientDo` preserves the merged
configuration; only the redirect counter can move, by exactly one. -/
theorem clientDo_fst_fields (C : Collab) (server : Str → SrvResp) (req : ReqM) (opt : OptM) :
    (clientDo C server req opt).1.followRedirects = opt.followRedirects ∧
    (clientDo C server req opt).1.preserveMethodOnRedirect = opt.preserveMethodOnRedirect ∧
    (clientDo C server req opt).1.maxRedirects = opt.maxRedirects ∧
    (clientDo C server req opt).1.initialised = opt.initialised ∧
    ((clientDo C server req opt).1.currRedirect = opt.currRedirect ∨
      (clientDo C server req opt).1.currRedirect = int64Incr opt.currRedirect) := by
  unfold clientDo
  split
  · exact ⟨rfl, rfl, rfl, rfl, Or.inl rfl⟩
  · dsimp only
    simp only [checkRedirects]
    split <;> (try split) <;> simp

@[simp] theorem populateResponse_header (r : RespM) (resp : SrvResp) (u : Str) :
    (populateResponse r resp u).header = resp.header := by
  simp only [populateResponse]
  split <;> rfl

@[simp] theorem populateResponse_statusCode (r : RespM) (resp : SrvResp) (u : Str) :
    (populateResponse r resp u).statusCode = resp.statusCode := by
  simp only [populateResponse]
  split <;> rfl

@[simp] theorem populateResponse_error (r : RespM) (resp : SrvResp) (u : Str) :
    (populateResponse r resp u).error = r.error := by
  simp only [populateResponse]
  split <;> rfl

@[simp] theorem setFile_currRedirect (C : Collab) (opt : OptM) (f : FileM) :
    (setFile C opt f).currRedirect = opt.currRedirect := rfl

@[simp] theorem setFile_maxRedirects (C : Collab) (opt : OptM) (f : FileM) :
    (setFile C opt f).maxRedirects = opt.maxRedirects := rfl

@[simp] theorem setFile_initialised (C : Collab) (opt : OptM) (f : FileM) :
    (setFile C opt f).initialised = opt.initialised := rfl

@[simp] theorem payloadSetup_fst_currRedirect (C : Collab) (method : Str) (p : PayloadM)
    (opt : OptM) : (payloadSetup C method p opt).1.currRedirect = opt.currRedirect := by
  unfold payloadSetup
  split <;> (try split) <;> rfl

@[simp] theorem payloadSetup_fst_maxRedirects (C : Collab) (method : Str) (p : PayloadM)
    (opt : OptM) : (payloadSetup C method p opt).1.maxRedirects = opt.maxRedirects := by
  unfold payloadSetup
  split <;> (try split) <;> rfl

@[simp] theorem payloadSetup_fst_initialised (C : Collab) (method : Str) (p : PayloadM)
    (opt : OptM) : (payloadSetup C method p opt).1.initialised = opt.initialised := by
  unfold payloadSetup
  split <;> (try split) <;> rfl

@[simp] theorem prepareRequest_snd_currRedirect (C : Collab) (method url : Str)
    (r : Option ReaderM) (cl : Int) (opt : OptM) :
    (prepareRequest C method url r cl opt).2.currRedirect = opt.currRedirect := by
  unfold prepareRequest
  split <;> (try split) <;> rfl

@[simp] theorem prepareRequest_snd_maxRedirects (C : Collab) (method url : Str)
    (r : Option ReaderM) (cl : Int) (opt : OptM) :
    (prepareRequest C method url r cl opt).2.maxRedirects = opt.maxRedirects := by
  unfold prepareRequest
  split <;> (try split) <;> rfl

@[simp] theorem prepareRequest_snd_initialised (C : Collab) (method url : Str)
    (r : Option ReaderM) (cl : Int) (opt : OptM) :
    (prepareRequest C method url r cl opt).2.initialised = opt.initialised := by
  unfold prepareRequest
  split <;> (try split) <;> rfl

@[simp] theorem followRedirectArgs_fst_currRedirect (C : Collab) (opt : OptM)
    (method : Str) (p : PayloadM) :
    (followRedirectArgs C opt method p).1.currRedirect = opt.currRedirect := by
  unfold followRedirectArgs reopenFile
  split <;> (try split) <;> rfl

@[simp] theorem followRedirectArgs_fst_maxRedirects (C : Collab) (opt : OptM)
    (method : Str) (p : PayloadM) :
    (followRedirectArgs C opt method p).1.maxRedirects = opt.maxRedirects := by
  unfold followRedirectArgs reopenFile
  split <;> (try split) <;> rfl

@[simp] theorem followRedirectArgs_fst_initialised (C : Collab) (opt : OptM)
    (method : Str) (p : PayloadM) :
    (followRedirectArgs C opt method p).1.initialised = opt.initialised := by
  unfold followRedirectArgs reopenFile
  split <;> (try split) <;> rfl

@[simp] theorem processResponse_snd (C : Collab) (hr : SrvResp) (u : Str) (r : RespM)
    (opt : OptM) : (processResponse C hr u r opt).2 = opt := by
  unfold processResponse
  split <;> (try split) <;> (try split) <;> rfl

/-- `options.New` on an already-initialised option is the identity. -/
theorem optionsNew_singleton (o : OptM) (h : o.initialised = true) :
    optionsNew [o] = o := by
  unfold optionsNew
  simp [h]

/-- When `clientDo` returns a response (rather than an error), a counter
strictly below the maximum stays strictly below it: the counting callback
fails the call on equality, so a surviving call incremented at most to a
value distinct from — and hence still below — the maximum. -/
theorem clientDo_ok_lt (C : Collab) (server : Str → SrvResp) (req : ReqM) (opt : OptM)
    (hr : SrvResp) (h : (clientDo C server req opt).2 = .ok hr)
    (hlt : opt.currRedirect < opt.maxRedirects) :
    (clientDo C server req opt).1.currRedirect < (clientDo C server req opt).1.maxRedirects := by
  unfold clientDo at h ⊢
  split at h
  · simp at h
  · dsimp only at h ⊢
    simp only [checkRedirects] at h ⊢
    split <;> (try split) <;> simp_all <;>
      exact int64Incr_lt _ _ hlt (by simp_all)

/-- C7 (counterexample): the size probe does not leave the stream at its
entry position — a stream entered at offset 2 is left at offset 0. -/
theorem probeSeek_not_position_preserving :
    (probeSeek { content := [10, 20, 30], pos := 2 }).1.pos ≠
      (SeekStream.mk [10, 20, 30] 2).pos := by
  decide

/-- C7 (amended): the probe of `Option.CreatePayloadReader` always leaves a
seekable stream rewound to position 0 (the code first seeks to the start,
records that position as "current", and restores it), and reports the
stream's full length as its size; for a stream payload the produced reader
is accordingly positioned at the start. -/
theorem probeSeek_rewinds_to_start (C : Collab) (s : SeekStream) :
    (probeSeek s).1.pos = 0 ∧ (probeSeek s).2 = (s.content.length : Int) ∧
    createPayloadReader C (PayloadM.stream s) =
      .ok (some (.fromStream { content := s.content, pos := 0 }), (s.content.length : Int)) := by
  refine ⟨rfl, rfl, ?_⟩
  simp [createPayloadReader, probeSeek, seek]

/-! ## C3: the redirected flag of PopulateResponse -/

/-- C3 (counterexample): a completed call whose final URL differs from the
requested URL but has the same byte length is not marked redirected:
`PopulateResponse` compares string lengths, not the strings. -/
theorem populateResponse_misses_equal_length_redirect :
    (populateResponse (respNew trivialCollab ("https://a.com/x".toList) ("GET".toList)
        PayloadM.none defaultOption)
        { statusCode := 200 } ("https://a.com/y".toList)).redirected = false ∧
      ("https://a.com/y".toList : Str) ≠
        (respNew trivialCollab ("https://a.com/x".toList) ("GET".toList)
          PayloadM.none defaultOption).url := by
  constructor
  · rfl
  · decide

/-- C3 (amended): starting from an unmarked record, `PopulateResponse`
sets `redirected` exactly when the byte length of the final request URL
differs from the byte length of the record's URL (a proxy that misses
equal-length URL changes). -/
theorem populateResponse_redirected_iff_length (r : RespM) (resp : SrvResp) (u : Str)
    (h : r.redirected = false) :
    (populateResponse r resp u).redirected = true ↔ u.length ≠ r.url.length := by
  unfold populateResponse
  by_cases hl : u.length ≠ r.url.length <;> simp [hl, h]

/-- Closed instance of `populateResponse_redirected_iff_length`. -/
theorem populateResponse_redirected_iff_length_w :
    (populateResponse (respNew trivialCollab ("https://a.com/x".toList) ("GET".toList)
        PayloadM.none defaultOption) { statusCode := 200 } ("https://a.com".toList)).redirected = true ↔
      ("https://a.com".toList : Str).length ≠
        (respNew trivialCollab ("https://a.com/x".toList) ("GET".toList)
          PayloadM.none defaultOption).url.length :=
  populateResponse_redirected_iff_length _ _ _ rfl

/-! ## C9: rejection of colons without "://" -/

/-- C9 (counterexample): `"https://example.com:8080"` contains a colon not
immediately followed by `//` (the port colon), yet `normaliseURL` accepts
it — the code tests global containment of `"://"`, not each colon. -/
theorem normaliseURL_accepts_bare_port_colon :
    hasBareColon ("https://example.com:8080".toList) = true ∧
      normaliseURL (fun _ => true) ("https://example.com:8080".toList) [] =
        .ok ("https://example.com:8080".toList) := by
  constructor
  · decide
  · decide

/-- C9 (amended): `normaliseURL` rejects with the missing-`//` error
exactly when the trimmed input contains a colon but contains no occurrence
of `"://"` anywhere; this check runs before the parse step and any I/O.
Inputs whose every `"://"`-less colon coexists with a `"://"` elsewhere
(e.g. a port after a schemed host) are not rejected by it. -/
theorem normaliseURL_missingSlashes_iff (parseOk : Str → Bool) (u scheme : Str) :
    normaliseURL parseOk u scheme = .error .missingSlashes ↔
      (goSubstr (goTrimSpace u) ([':']) = true ∧
        goSubstr (goTrimSpace u) ([':', '/', '/']) = false) := by
  unfold normaliseURL
  by_cases h : (goSubstr (goTrimSpace u) ([':']) && !goSubstr (goTrimSpace u) ([':', '/', '/'])) = true
  · rw [if_pos h]
    simp only [Bool.and_eq_true, Bool.not_eq_true'] at h
    simp [h]
  · rw [if_neg h]
    constructor
    · intro hcontra
      have hne : ∀ (b : Bool) (x : Str),
          (if b = true then (Except.ok x : Except NormErr Str) else Except.error NormErr.parseFail) ≠
            Except.error NormErr.missingSlashes := by
        intro b x
        cases b <;> simp
      split at hcontra <;> exact absurd hcontra (hne _ _)
    · intro hb
      exact absurd (by simp [hb.1, hb.2]) h

/-! ## C4: method and payload across an accepted redirect -/

/-- C4: on an accepted redirect, with method preservation the next hop
keeps the HTTP method and re-derives the payload from its source — a
tracked file is reopened from the recorded filename as a fresh handle at
offset 0 (the hop itself carries no inline payload; the next call pulls the
reopened handle from the options), and byte-slice, buffer and string
payloads are re-wrapped from their retained content; with preservation
disabled the next hop is always a GET with no payload. -/
theorem followRedirectArgs_spec (C : Collab) (opt : OptM) (method : Str) :
    (opt.preserveMethodOnRedirect = true → opt.file = Option.none →
      (∀ d, followRedirectArgs C opt method (PayloadM.bytes d) = (opt, method, PayloadM.bytes d)) ∧
      (∀ d, followRedirectArgs C opt method (PayloadM.buffer d) = (opt, method, PayloadM.buffer d)) ∧
      (∀ s, followRedirectArgs C opt method (PayloadM.text s) = (opt, method, PayloadM.text s))) ∧
    (opt.preserveMethodOnRedirect = true → ∀ f p data, opt.file = some f →
      C.fs opt.filename = some data →
      followRedirectArgs C opt method p =
        ({ opt with file := some { name := opt.filename, pos := 0 } }, method, PayloadM.none)) ∧
    (opt.preserveMethodOnRedirect = false → ∀ p,
      followRedirectArgs C opt method p = (opt, "GET".toList, PayloadM.none)) := by
  refine ⟨?_, ?_, ?_⟩ <;> intros <;> simp_all [followRedirectArgs, reopenFile]

/-- Closed instance of `followRedirectArgs_spec`: a preserved POST with a
byte-slice payload is replayed as the same POST with the same bytes. -/
theorem followRedirectArgs_spec_w :
    followRedirectArgs trivialCollab { defaultOption with preserveMethodOnRedirect := true }
        ("POST".toList) (PayloadM.bytes [7]) =
      ({ defaultOption with preserveMethodOnRedirect := true }, "POST".toList, PayloadM.bytes [7]) :=
  ((followRedirectArgs_spec trivialCollab
    { defaultOption with preserveMethodOnRedirect := true } ("POST".toList)).1 rfl rfl).1 [7]

/-! ## C6: custom compression with no hook -/

/-- C6 (counterexample): a POST with a payload, custom compression selected
and no compressor hook does not fail before the transfer: the construction
error is detected inside the compression goroutine (`compressData`), the
pipe is closed with it, and it surfaces as a request-body error out of the
transport call — an error kind raised only after the request is dispatched,
not one of the pre-transfer (URL or payload-reader) error kinds. -/
theorem custom_missing_hook_error_is_midstream :
    ((doReq trivialCollab okServer 1 ("POST".toList) ("https://x.test".toList)
        (PayloadM.bytes [1, 2, 3]) [optC6]).1).errOf =
      some (.transport (.bodyError ("unsupported compression type: custom".toList))) ∧
    (((doReq trivialCollab okServer 1 ("POST".toList) ("https://x.test".toList)
        (PayloadM.bytes [1, 2, 3]) [optC6]).1).errOf.map ErrM.beforeTransport) = some false ∧
    getCompressor trivialCollab optC6 =
      .error ("custom compression specified but no compressor provided".toList) := by
  exact ⟨rfl, rfl, rfl⟩

/-- C6 (amended), inner form over `doReqBody`: for any configuration with
custom compression and no hook, a POST with a byte payload fails with the
unsupported-compression body error from the transport call. -/
theorem doReqBody_custom_missing_hook (C : Collab) (server : Str → SrvResp)
    (rec : Str → Str → PayloadM → List OptM → Outcome × OptM)
    (url0 url : Str) (opt : OptM) (d : List Nat)
    (hc : opt.compression = "custom".toList)
    (hh : opt.customCompressor = Option.none)
    (hf : opt.file = Option.none)
    (hn : normaliseURL C.parseOk url0 opt.protocolScheme = .ok url) :
    (doReqBody C server rec ("POST".toList) url0 (PayloadM.bytes d) opt).1.errOf =
        some (.transport (.bodyError ("unsupported compression type: custom".toList))) ∧
      (doReqBody C server rec ("POST".toList) url0 (PayloadM.bytes d) opt).1.isOk = false := by
  unfold doReqBody
  rw [hn]
  simp [payloadSetup, mkPayloadReader, bodyMethod, hf, createPayloadReader, prepareRequest,
    hc, compressData, getCompressor, hh, clientDo, Outcome.errOf, Outcome.isOk]

/-- C6 (amended): custom compression with no compressor hook is not a
fail-fast configuration error: the call (a POST carrying a payload) does
fail and never succeeds, but the error is detected in the compression
goroutine and surfaced from the transport call as a request-body error
("unsupported compression type: custom"), after the request has been
dispatched — not before bytes are sent.  A call without a payload does not
touch the compressor at all. -/
theorem doReqStep_custom_missing_hook (C : Collab) (server : Str → SrvResp)
    (rec : Str → Str → PayloadM → List OptM → Outcome × OptM)
    (url0 url : Str) (opts : List OptM) (d : List Nat)
    (hc : (optionsNew opts).compression = "custom".toList)
    (hh : (optionsNew opts).customCompressor = Option.none)
    (hf : (optionsNew opts).file = Option.none)
    (hn : normaliseURL C.parseOk url0 (optionsNew opts).protocolScheme = .ok url) :
    (doReqStep C server rec ("POST".toList) url0 (PayloadM.bytes d) opts).1.errOf =
        some (.transport (.bodyError ("unsupported compression type: custom".toList))) ∧
      (doReqStep C server rec ("POST".toList) url0 (PayloadM.bytes d) opts).1.isOk = false := by
  unfold doReqStep
  exact doReqBody_custom_missing_hook C server rec url0 url _ d
    (by simp [hc]) (by simp [hh]) (by simp [hf]) (by simp [hn])

/-! ## C5: redirect responses with following disabled -/

/-- C5 (counterexample): a call with redirect-following disabled that
receives a 302 with `Location` intact can still fail instead of returning
the redirect response: the `CheckRedirect` closure runs (and counts) even
when following is disabled, and with `MaxRedirects = 1` the incremented
counter equals the limit, so the transport call returns the max-redirects
error. -/
theorem noFollow_redirect_can_error :
    optC5.followRedirects = false ∧
    isRedirect (selfServer loopURL).statusCode = true ∧
    headerGet (selfServer loopURL).header ("Location".toList) = loopURL ∧
    ((doReq trivialCollab selfServer 3 ("GET".toList) loopURL PayloadM.none [optC5]).1).errOf =
      some (.transport (.maxRedirectsExceeded 1)) ∧
    ((doReq trivialCollab selfServer 3 ("GET".toList) loopURL PayloadM.none [optC5]).1).isOk =
      false :=
  ⟨rfl, rfl, rfl, rfl, rfl⟩

/-- C5 (amended), inner form over `doReqBody`: with following disabled, a
redirect response is returned as the final result — headers (and so the
`Location` value) intact, nil error — provided the redirect-counting
callback does not fire, i.e. the `Location` header is absent or the
incremented counter differs from `MaxRedirects`. -/
theorem doReqBody_no_follow (C : Collab) (server : Str → SrvResp)
    (rec : Str → Str → PayloadM → List OptM → Outcome × OptM)
    (method url0 url : Str) (opt : OptM)
    (hf : opt.followRedirects = false)
    (hfile : opt.file = Option.none)
    (hn : normaliseURL C.parseOk url0 opt.protocolScheme = .ok url)
    (hr : isRedirect (server url).statusCode = true)
    (hcnt : headerGet (server url).header ("Location".toList) = [] ∨
      int64Incr opt.currRedirect ≠ opt.maxRedirects) :
    (doReqBody C server rec method url0 PayloadM.none opt).1.isOk = true ∧
    (doReqBody C server rec method url0 PayloadM.none opt).1.hdrOf = (server url).header ∧
    ((doReqBody C server rec method url0 PayloadM.none opt).1.respOf.map RespM.error) =
      some Option.none ∧
    ((doReqBody C server rec method url0 PayloadM.none opt).1.respOf.map RespM.statusCode) =
      some (server url).statusCode := by
  unfold doReqBody
  rw [hn]
  by_cases hb : bodyMethod method = true <;>
  · simp only [payloadSetup, mkPayloadReader, hb, if_true, if_false, hfile, ite_self]
    by_cases hloc : headerGet (server url).header ("Location".toList) = []
    · have hloc2 : headerGet (server url).header (['L', 'o', 'c', 'a', 't', 'i', 'o', 'n'] : Str) = [] := hloc
      simp [prepareRequest, clientDo, consumeBody, hr, hloc2, hf, bodyReplayable,
        Outcome.isOk, Outcome.hdrOf, Outcome.respOf, respNew]
    · have hloc2 : ¬ headerGet (server url).header (['L', 'o', 'c', 'a', 't', 'i', 'o', 'n'] : Str) = [] := hloc
      have hc : int64Incr opt.currRedirect ≠ opt.maxRedirects := by
        rcases hcnt with h | h
        · exact absurd h hloc
        · exact h
      simp [prepareRequest, clientDo, consumeBody, hr, hloc2, hf, checkRedirects, hc,
        bodyReplayable, Outcome.isOk, Outcome.hdrOf, Outcome.respOf, respNew]

/-- C5 (amended): a call with redirect-following disabled that receives a
redirect status returns the redirect response itself — its headers, hence
its `Location`, intact, with a nil error — as the final result, un-followed,
provided the per-configuration redirect counter incremented by the
transport's `CheckRedirect` callback does not reach `MaxRedirects` (the
callback runs once per located redirect even when following is disabled;
on equality the call fails with the max-redirects error instead). -/
theorem doReqStep_no_follow (C : Collab) (server : Str → SrvResp)
    (rec : Str → Str → PayloadM → List OptM → Outcome × OptM)
    (method url0 url : Str) (opts : List OptM)
    (hf : (optionsNew opts).followRedirects = false)
    (hfile : (optionsNew opts).file = Option.none)
    (hn : normaliseURL C.parseOk url0 (optionsNew opts).protocolScheme = .ok url)
    (hr : isRedirect (server url).statusCode = true)
    (hcnt : headerGet (server url).header ("Location".toList) = [] ∨
      int64Incr (optionsNew opts).currRedirect ≠ (optionsNew opts).maxRedirects) :
    (doReqStep C server rec method url0 PayloadM.none opts).1.isOk = true ∧
    (doReqStep C server rec method url0 PayloadM.none opts).1.hdrOf = (server url).header ∧
    ((doReqStep C server rec method url0 PayloadM.none opts).1.respOf.map RespM.error) =
      some Option.none ∧
    ((doReqStep C server rec method url0 PayloadM.none opts).1.respOf.map RespM.statusCode) =
      some (server url).statusCode := by
  unfold doReqStep
  exact doReqBody_no_follow C server rec method url0 url _
    (by simp [hf]) (by simp [hfile]) (by simp [hn]) hr (by simpa using hcnt)

/-- Closed instance of `doReqStep_no_follow`: the default configuration
(following disabled, `MaxRedirects` 10) against the self-redirecting
endpoint gets the 302 back with headers intact and nil error. -/
theorem doReqStep_no_follow_w :
    (doReqStep trivialCollab selfServer (fun _ _ _ o => (.outOfFuel, optionsNew o))
        ("GET".toList) loopURL PayloadM.none [defaultOption]).1.isOk = true ∧
    (doReqStep trivialCollab selfServer (fun _ _ _ o => (.outOfFuel, optionsNew o))
        ("GET".toList) loopURL PayloadM.none [defaultOption]).1.hdrOf =
      (selfServer loopURL).header :=
  ⟨(doReqStep_no_follow trivialCollab selfServer (fun _ _ _ o => (.outOfFuel, optionsNew o))
      ("GET".toList) loopURL loopURL [defaultOption] rfl rfl rfl rfl
      (Or.inr (by decide))).1,
   (doReqStep_no_follow trivialCollab selfServer (fun _ _ _ o => (.outOfFuel, optionsNew o))
      ("GET".toList) loopURL loopURL [defaultOption] rfl rfl rfl rfl
      (Or.inr (by decide))).2.1⟩

/-! ## The follow-enabled redirect hop -/

/-- One `doReqBody` evaluation against a redirect response with following
enabled and method preservation disabled, for a body-less call: the
redirect-counting callback increments the counter; on equality with
`MaxRedirects` the hop fails with the max-redirects error, otherwise the
call recurses as a GET with no payload on the resolved location. -/
theorem doReqBody_follow_redirect (C : Collab) (server : Str → SrvResp)
    (rec : Str → Str → PayloadM → List OptM → Outcome × OptM)
    (method url0 url loc : Str) (opt : OptM)
    (hfollow : opt.followRedirects = true)
    (hpre : opt.preserveMethodOnRedirect = false)
    (hfile : opt.file = Option.none)
    (hn : normaliseURL C.parseOk url0 opt.protocolScheme = .ok url)
    (hred : isRedirect (server url).statusCode = true)
    (hloc : headerGet (server url).header ("Location".toList) = loc)
    (hlocne : loc ≠ [])
    (hp : C.parseOk loc = true) :
    doReqBody C server rec method url0 PayloadM.none opt =
      if int64Incr opt.currRedirect = opt.maxRedirects then
        (.err { respNew C url method PayloadM.none opt with
                  error := some (.transport (.maxRedirectsExceeded opt.maxRedirects)) }
              (.transport (.maxRedirectsExceeded opt.maxRedirects)),
          { opt with currRedirect := int64Incr opt.currRedirect })
      else
        rec ("GET".toList) (C.resolveRef url loc) PayloadM.none
          [{ opt with currRedirect := int64Incr opt.currRedirect }] := by
  unfold doReqBody
  rw [hn]
  have hloc2 : headerGet (server url).header (['L', 'o', 'c', 'a', 't', 'i', 'o', 'n'] : Str) = loc :=
    hloc
  by_cases hb : bodyMethod method = true <;>
  · simp only [payloadSetup, mkPayloadReader, hb, if_true, if_false, hfile, ite_self]
    by_cases hfire : int64Incr opt.currRedirect = opt.maxRedirects
    · simp [prepareRequest, clientDo, consumeBody, checkRedirects, hred, hloc2, hlocne,
        hfire, hfile, bodyReplayable, respNew]
    · simp [prepareRequest, clientDo, consumeBody, checkRedirects, hred, hloc2, hlocne,
        hp, hfollow, hpre, hfire, hfile, bodyReplayable, followRedirectArgs, respNew]

/-! ## C1: the redirect limit of five -/

/-- The first hop of the limit-5 chain: the counter moves from 0 to 1 and
the chain continues. -/
theorem doReqC1_start (f : Nat) :
    doReq trivialCollab selfServer (f + 1) ("GET".toList) loopURL PayloadM.none [optC1] =
      doReq trivialCollab selfServer f ("GET".toList) loopURL PayloadM.none [famC1 1] := rfl

/-- Each later hop of the limit-5 chain: the counter increments; at 5 the
call fails with the max-redirects error, otherwise it recurses. -/
theorem doReqC1_loop (f : Nat) (c : Int) :
    doReq trivialCollab selfServer (f + 1) ("GET".toList) loopURL PayloadM.none [famC1 c] =
      if int64Incr c = (5 : Int) then
        (.err respC1err (.transport (.maxRedirectsExceeded 5)), famC1 (int64Incr c))
      else doReq trivialCollab selfServer f ("GET".toList) loopURL PayloadM.none
        [famC1 (int64Incr c)] :=
  doReqBody_follow_redirect trivialCollab selfServer (doReq trivialCollab selfServer f)
    ("GET".toList) loopURL loopURL loopURL
    (withTraceHeader trivialCollab (optionsNew [famC1 c]))
    rfl rfl rfl rfl rfl rfl (by decide) rfl

/-- The limit-5 chain ends in the max-redirects error whenever the fuel
reaches the limit. -/
theorem doReqC1_err (f : Nat) (c : Int) (h5 : c < 5) (hf : 5 ≤ (f : Int) + c) :
    (doReq trivialCollab selfServer f ("GET".toList) loopURL PayloadM.none [famC1 c]).1 =
      .err respC1err (.transport (.maxRedirectsExceeded 5)) := by
  induction f generalizing c with
  | zero =>
      exfalso
      simp only [Nat.cast_zero, zero_add] at hf
      omega
  | succ f ih =>
      have hcc : int64Incr c = c + 1 := int64Incr_eq_add_one c (by omega)
      rw [doReqC1_loop, hcc]
      by_cases hc : c + 1 = (5 : Int)
      · rw [if_pos hc]
      · rw [if_neg hc]
        refine ih (c + 1) (by omega) ?_
        push_cast at hf ⊢
        omega

/-- The limit-5 chain never returns a successful response, at any fuel. -/
theorem doReqC1_noSuccess (f : Nat) (c : Int) :
    (doReq trivialCollab selfServer f ("GET".toList) loopURL PayloadM.none [famC1 c]).1.isOk =
      false := by
  induction f generalizing c with
  | zero => rfl
  | succ f ih =>
      rw [doReqC1_loop]
      by_cases hc : int64Incr c = (5 : Int)
      · rw [if_pos hc]
        rfl
      · rw [if_neg hc]
        exact ih (int64Incr c)

/-- C1: against an endpoint that always redirects to itself, a call with
`MaxRedirects` 5 and following enabled terminates with the "max redirects
(5) exceeded" transport error once it is given enough fuel to reach the
limit (five hops), and no successful response is ever returned at any
fuel; the rendered error names the configured limit 5. -/
theorem doReq_max_redirects_five :
    (∀ f : Nat, 5 ≤ f →
      (doReq trivialCollab selfServer f ("GET".toList) loopURL PayloadM.none [optC1]).1 =
        .err respC1err (.transport (.maxRedirectsExceeded 5))) ∧
    (∀ f : Nat,
      (doReq trivialCollab selfServer f ("GET".toList) loopURL PayloadM.none [optC1]).1.isOk =
        false) ∧
    (DoErr.maxRedirectsExceeded 5).msg = "max redirects (5) exceeded".toList := by
  refine ⟨?_, ?_, by decide⟩
  · intro f hf
    match f, hf with
    | f + 1, hf =>
        rw [doReqC1_start]
        refine doReqC1_err f 1 (by omega) ?_
        have : (5 : ℤ) ≤ (f : ℤ) + 1 := by exact_mod_cast hf
        omega
  · intro f
    match f with
    | 0 => rfl
    | f + 1 =>
        rw [doReqC1_start]
        exact doReqC1_noSuccess f 1

/-- Closed instance of `doReq_max_redirects_five`. -/
theorem doReq_max_redirects_five_w :
    (doReq trivialCollab selfServer 5 ("GET".toList) loopURL PayloadM.none [optC1]).1 =
      .err respC1err (.transport (.maxRedirectsExceeded 5)) ∧
    (doReq trivialCollab selfServer 0 ("GET".toList) loopURL PayloadM.none [optC1]).1.isOk =
      false :=
  ⟨doReq_max_redirects_five.1 5 (by norm_num), doReq_max_redirects_five.2.1 0⟩

/-! ## C10: MaxRedirects left unset merges to 0; the check fires only at
the int64 wrap -/

/-- The first hop of the merged `MaxRedirects`-0 chain. -/
theorem doReqC10_start (f : Nat) :
    doReq trivialCollab selfServer (f + 1) ("GET".toList) loopURL PayloadM.none [optC10] =
      doReq trivialCollab selfServer f ("GET".toList) loopURL PayloadM.none [famC10 1] := rfl

/-- Each later hop of the chain: the counter is incremented (wrapping at
the int64 boundary) and compared for equality with 0; on a match the hop
fails with the max-redirects error, otherwise the chain continues. -/
theorem doReqC10_loop (f : Nat) (c : Int) :
    doReq trivialCollab selfServer (f + 1) ("GET".toList) loopURL PayloadM.none [famC10 c] =
      if int64Incr c = (0 : Int) then
        (.err { respNew trivialCollab loopURL ("GET".toList) PayloadM.none (famC10 c) with
                  error := some (.transport (.maxRedirectsExceeded 0)) }
              (.transport (.maxRedirectsExceeded 0)),
          famC10 (int64Incr c))
      else doReq trivialCollab selfServer f ("GET".toList) loopURL PayloadM.none
        [famC10 (int64Incr c)] :=
  doReqBody_follow_redirect trivialCollab selfServer (doReq trivialCollab selfServer f)
    ("GET".toList) loopURL loopURL loopURL
    (withTraceHeader trivialCollab (optionsNew [famC10 c]))
    rfl rfl rfl rfl rfl rfl (by decide) rfl

/-- With a negative counter that stays short of zero for the whole budget
the chain only burns fuel. -/
theorem doReqC10_neg (f : Nat) (c : Int) (hhi : c + (f : Int) ≤ -1) :
    (doReq trivialCollab selfServer f ("GET".toList) loopURL PayloadM.none [famC10 c]).1 =
      .outOfFuel := by
  induction f generalizing c with
  | zero => rfl
  | succ f ih =>
      have hcc : int64Incr c = c + 1 := int64Incr_eq_add_one c (by push_cast at hhi; omega)
      rw [doReqC10_loop, hcc, if_neg (by push_cast at hhi; omega)]
      exact ih (c + 1) (by push_cast at hhi ⊢; omega)

/-- With a negative counter and enough budget to climb back to zero, the
chain fires the max-redirects error naming the merged maximum 0. -/
theorem doReqC10_negFire (f : Nat) (c : Int) (hneg : c ≤ -1) (hf : -c ≤ (f : Int)) :
    (doReq trivialCollab selfServer f ("GET".toList) loopURL PayloadM.none
        [famC10 c]).1.errOf = some (.transport (.maxRedirectsExceeded 0)) ∧
    (doReq trivialCollab selfServer f ("GET".toList) loopURL PayloadM.none
        [famC10 c]).1.isOk = false := by
  induction f generalizing c with
  | zero =>
      exfalso
      push_cast at hf
      omega
  | succ f ih =>
      have hcc : int64Incr c = c + 1 := int64Incr_eq_add_one c (by omega)
      rw [doReqC10_loop, hcc]
      by_cases h0 : c + 1 = (0 : Int)
      · rw [if_pos h0]
        exact ⟨rfl, rfl⟩
      · rw [if_neg h0]
        exact ih (c + 1) (by omega) (by push_cast at hf ⊢; omega)

/-- With a non-negative counter and a budget too small to reach the int64
wrap, the chain consumes all its fuel without terminating. -/
theorem doReqC10_pos (f : Nat) (c : Int) (h0 : 0 ≤ c)
    (hhi : c ≤ 9223372036854775807)
    (hf : (f : Int) ≤ 18446744073709551615 - c) :
    (doReq trivialCollab selfServer f ("GET".toList) loopURL PayloadM.none [famC10 c]).1 =
      .outOfFuel := by
  induction f generalizing c with
  | zero => rfl
  | succ f ih =>
      by_cases hmax : c = 9223372036854775807
      · have hcc : int64Incr c = -9223372036854775808 := by
          rw [hmax]
          rfl
        rw [doReqC10_loop, hcc, if_neg (by omega)]
        exact doReqC10_neg f (-9223372036854775808) (by push_cast at hf; omega)
      · have hcc : int64Incr c = c + 1 := int64Incr_eq_add_one c (by omega)
        rw [doReqC10_loop, hcc, if_neg (by omega)]
        exact ih (c + 1) (by omega) (by omega) (by push_cast at hf ⊢; omega)

/-- With a non-negative counter and a budget reaching the int64 wrap, the
chain terminates with the max-redirects error naming 0: the counter climbs
to `math.MaxInt64`, wraps to `math.MinInt64`, climbs back, and on reaching
0 the equality check with the merged `MaxRedirects` of 0 fires. -/
theorem doReqC10_posFire (f : Nat) (c : Int) (h0 : 0 ≤ c)
    (hhi : c ≤ 9223372036854775807)
    (hf : 18446744073709551616 - c ≤ (f : Int)) :
    (doReq trivialCollab selfServer f ("GET".toList) loopURL PayloadM.none
        [famC10 c]).1.errOf = some (.transport (.maxRedirectsExceeded 0)) ∧
    (doReq trivialCollab selfServer f ("GET".toList) loopURL PayloadM.none
        [famC10 c]).1.isOk = false := by
  induction f generalizing c with
  | zero =>
      exfalso
      push_cast at hf
      omega
  | succ f ih =>
      by_cases hmax : c = 9223372036854775807
      · have hcc : int64Incr c = -9223372036854775808 := by
          rw [hmax]
          rfl
        rw [doReqC10_loop, hcc, if_neg (by omega)]
        exact doReqC10_negFire f (-9223372036854775808) (by omega)
          (by push_cast at hf; omega)
      · have hcc : int64Incr c = c + 1 := int64Incr_eq_add_one c (by omega)
        rw [doReqC10_loop, hcc, if_neg (by omega)]
        exact ih (c + 1) (by omega) (by omega) (by push_cast at hf ⊢; omega)

/-- C10 (counterexample): the merged `MaxRedirects`-0 configuration does
NOT make the always-redirecting chain unbounded in the strict sense: the
counter is a wrapping 64-bit Go `int`, so after exactly 2^64 redirect hops
it returns to 0, the equality check of `CheckRedirects` fires, and the
call terminates with the "max redirects (0) exceeded" error. -/
theorem maxRedirectsZero_check_eventually_fires :
    ((doReq trivialCollab selfServer 18446744073709551616 ("GET".toList) loopURL
        PayloadM.none [optC10]).1).errOf =
      some (.transport (.maxRedirectsExceeded 0)) := by
  have h : (18446744073709551616 : Nat) = 18446744073709551615 + 1 := by norm_num
  rw [h, doReqC10_start]
  exact (doReqC10_posFire 18446744073709551615 1 (by omega) (by omega) (by omega)).1

/-- C10 (amended): merging a caller `Option` that leaves `MaxRedirects`
unset over the defaults yields an effective `MaxRedirects` of 0 (`Merge`
copies the zero unconditionally over the default 10), and the counter is
incremented before an equality — not greater-or-equal — comparison against
that 0: against an always-redirecting endpoint the max-redirects error
cannot fire before the wrapping 64-bit counter returns to 0, so every
budget of at most 2^64 - 1 requests is exhausted with neither the error
nor a successful response, and every budget of at least 2^64 requests ends
with the "max redirects (0) exceeded" error at the wrap. -/
theorem optionsMerge_unset_maxRedirects_wrap_bound :
    (optionsNew [optC10]).maxRedirects = 0 ∧
    (∀ f : Nat, f ≤ 18446744073709551615 →
      (doReq trivialCollab selfServer f ("GET".toList) loopURL PayloadM.none [optC10]).1 =
        .outOfFuel) ∧
    (∀ f : Nat, 18446744073709551616 ≤ f →
      ((doReq trivialCollab selfServer f ("GET".toList) loopURL PayloadM.none
          [optC10]).1).errOf = some (.transport (.maxRedirectsExceeded 0)) ∧
      ((doReq trivialCollab selfServer f ("GET".toList) loopURL PayloadM.none
          [optC10]).1).isOk = false) := by
  refine ⟨rfl, ?_, ?_⟩
  · intro f hf
    match f, hf with
    | 0, _ => rfl
    | f + 1, hf =>
        rw [doReqC10_start]
        exact doReqC10_pos f 1 (by omega) (by omega) (by omega)
  · intro f hf
    match f, hf with
    | 0, hf => exact absurd hf (by norm_num)
    | f + 1, hf =>
        rw [doReqC10_start]
        exact doReqC10_posFire f 1 (by omega) (by omega) (by omega)

/-- Closed instance of `optionsMerge_unset_maxRedirects_wrap_bound`. -/
theorem optionsMerge_unset_maxRedirects_wrap_bound_w :
    (3 : Nat) ≤ 18446744073709551615 ∧
    (doReq trivialCollab selfServer 3 ("GET".toList) loopURL PayloadM.none [optC10]).1 =
      .outOfFuel :=
  ⟨by norm_num, optionsMerge_unset_maxRedirects_wrap_bound.2.1 3 (by norm_num)⟩

@[simp] theorem clientDo_fst_maxRedirects (C : Collab) (server : Str → SrvResp)
    (req : ReqM) (opt : OptM) :
    (clientDo C server req opt).1.maxRedirects = opt.maxRedirects :=
  (clientDo_fst_fields C server req opt).2.2.1

@[simp] theorem clientDo_fst_initialised (C : Collab) (server : Str → SrvResp)
    (req : ReqM) (opt : OptM) :
    (clientDo C server req opt).1.initialised = opt.initialised :=
  (clientDo_fst_fields C server req opt).2.2.2.1

theorem clientDo_fst_curr_cases (C : Collab) (server : Str → SrvResp)
    (req : ReqM) (opt : OptM) :
    (clientDo C server req opt).1.currRedirect = opt.currRedirect ∨
      (clientDo C server req opt).1.currRedirect = int64Incr opt.currRedirect :=
  (clientDo_fst_fields C server req opt).2.2.2.2

theorem doReqBody_counter_inv (C : Collab) (server : Str → SrvResp)
    (rec : Str → Str → PayloadM → List OptM → Outcome × OptM)
    (hrec : ∀ m u p opts, (optionsNew opts).currRedirect < (optionsNew opts).maxRedirects →
      (rec m u p opts).2.currRedirect ≤ (optionsNew opts).maxRedirects ∧
      (rec m u p opts).2.maxRedirects = (optionsNew opts).maxRedirects)
    (method url0 : Str) (p : PayloadM) (opt : OptM)
    (hinit : opt.initialised = true)
    (hlt : opt.currRedirect < opt.maxRedirects) :
    (doReqBody C server rec method url0 p opt).2.currRedirect ≤ opt.maxRedirects ∧
    (doReqBody C server rec method url0 p opt).2.maxRedirects = opt.maxRedirects := by
  unfold doReqBody
  split
  · exact ⟨le_of_lt hlt, rfl⟩
  next url hurl =>
    dsimp only
    split
    next m hm => constructor <;> simp [hlt.le]
    next pr cl hpr =>
      have hcur := clientDo_fst_curr_cases C server
        (prepareRequest C method url pr cl (payloadSetup C method p opt).1).1
        (prepareRequest C method url pr cl (payloadSetup C method p opt).1).2
      have hA : (clientDo C server
          (prepareRequest C method url pr cl (payloadSetup C method p opt).1).1
          (prepareRequest C method url pr cl (payloadSetup C method p opt).1).2).1.currRedirect ≤
            opt.maxRedirects := by
        rcases hcur with h | h <;> rw [h] <;> simp <;>
          first
            | omega
            | exact int64Incr_le _ _ hlt
      have hB : (clientDo C server
          (prepareRequest C method url pr cl (payloadSetup C method p opt).1).1
          (prepareRequest C method url pr cl (payloadSetup C method p opt).1).2).1.maxRedirects =
            opt.maxRedirects := by simp
      split
      next e he => exact ⟨hA, hB⟩
      next hr hhr =>
        split
        · split
          · exact ⟨hA, hB⟩
          · split
            · exact ⟨hA, hB⟩
            · split
              · exact ⟨hA, hB⟩
              · -- the recursive hop
                have hlt4 : (clientDo C server
                    (prepareRequest C method url pr cl (payloadSetup C method p opt).1).1
                    (prepareRequest C method url pr cl (payloadSetup C method p opt).1).2).1.currRedirect <
                    (clientDo C server
                    (prepareRequest C method url pr cl (payloadSetup C method p opt).1).1
                    (prepareRequest C method url pr cl (payloadSetup C method p opt).1).2).1.maxRedirects :=
                  clientDo_ok_lt C server _ _ hr hhr (by simpa using hlt)
                have hsing : optionsNew [(followRedirectArgs C (clientDo C server
                    (prepareRequest C method url pr cl (payloadSetup C method p opt).1).1
                    (prepareRequest C method url pr cl (payloadSetup C method p opt).1).2).1 method
                    (payloadSetup C method p opt).2).1] =
                    (followRedirectArgs C (clientDo C server
                    (prepareRequest C method url pr cl (payloadSetup C method p opt).1).1
                    (prepareRequest C method url pr cl (payloadSetup C method p opt).1).2).1 method
                    (payloadSetup C method p opt).2).1 :=
                  optionsNew_singleton _ (by simp [hinit])
                have hpre : (optionsNew [(followRedirectArgs C (clientDo C server
                    (prepareRequest C method url pr cl (payloadSetup C method p opt).1).1
                    (prepareRequest C method url pr cl (payloadSetup C method p opt).1).2).1 method
                    (payloadSetup C method p opt).2).1]).currRedirect <
                    (optionsNew [(followRedirectArgs C (clientDo C server
                    (prepareRequest C method url pr cl (payloadSetup C method p opt).1).1
                    (prepareRequest C method url pr cl (payloadSetup C method p opt).1).2).1 method
                    (payloadSetup C method p opt).2).1]).maxRedirects := by
                  rw [hsing]
                  simpa using hlt4
                obtain ⟨hr1, hr2⟩ := hrec _ _ _ _ hpre
                rw [hsing] at hr1 hr2
                constructor
                · refine le_trans hr1 ?_
                  simp
                · rw [hr2]
                  simp
        · constructor <;> simp [hA, hB]

/-- Counter invariant for the fuel-indexed `doRequest`: a configuration
entering strictly below its maximum never ends above it, and the maximum
itself is never altered. -/
theorem doReq_counter_inv (C : Collab) (server : Str → SrvResp) :
    ∀ (f : Nat) (m u : Str) (p : PayloadM) (opts : List OptM),
      (optionsNew opts).currRedirect < (optionsNew opts).maxRedirects →
      (doReq C server f m u p opts).2.currRedirect ≤ (optionsNew opts).maxRedirects ∧
      (doReq C server f m u p opts).2.maxRedirects = (optionsNew opts).maxRedirects := by
  intro f
  induction f with
  | zero =>
      intro m u p opts hlt
      exact ⟨le_of_lt hlt, rfl⟩
  | succ f ih =>
      intro m u p opts hlt
      have h := doReqBody_counter_inv C server (doReq C server f) ih m u p
        (withTraceHeader C (optionsNew opts))
        (by simp [optionsNew_initialised]) (by simpa using hlt)
      have hgoal : doReq C server (f + 1) m u p opts =
          doReqBody C server (doReq C server f) m u p (withTraceHeader C (optionsNew opts)) := rfl
      rw [hgoal]
      exact ⟨by simpa using h.1, by simpa using h.2⟩

/-! ## C2: the redirect counter across calls -/

/-- C2 (counterexample): the redirect counter is not reset at the start of
a fresh top-level call on a shared configuration object.  After a call on
`optC2` exhausts its limit of 10 against the self-redirecting endpoint, a
second top-level call starting from the returned (shared) configuration
begins with the counter still at 10, not 0: `options.New` passes an
initialised configuration through unchanged and nothing resets the private
counter. -/
theorem redirect_counter_not_reset :
    ((doReq trivialCollab selfServer 12 ("GET".toList) loopURL PayloadM.none [optC2]).1).errOf =
      some (.transport (.maxRedirectsExceeded 10)) ∧
    (optionsNew [(doReq trivialCollab selfServer 12 ("GET".toList) loopURL PayloadM.none
        [optC2]).2]).currRedirect = 10 ∧
    ((10 : Int) ≠ 0) := ⟨rfl, rfl, by decide⟩

/-- C2 (amended): (1) within any single call whose effective configuration
enters with the counter strictly below `MaxRedirects` — in particular any
fresh configuration with a positive maximum — the counter never exceeds
`MaxRedirects`, because the counting callback fails the call chain exactly
when the incremented counter reaches the maximum; (2) the counter is never
reset: `options.New` returns an initialised (shared) configuration object
unchanged, so the counter carries over from one top-level call to the next
rather than restarting at zero. -/
theorem redirect_counter_invariant :
    (∀ (C : Collab) (server : Str → SrvResp) (f : Nat) (m u : Str) (p : PayloadM)
      (opts : List OptM),
      (optionsNew opts).currRedirect < (optionsNew opts).maxRedirects →
      (doReq C server f m u p opts).2.currRedirect ≤ (optionsNew opts).maxRedirects) ∧
    (∀ o : OptM, o.initialised = true → optionsNew [o] = o) :=
  ⟨fun C server f m u p opts hlt => (doReq_counter_inv C server f m u p opts hlt).1,
   optionsNew_singleton⟩

/-- Closed instance of `redirect_counter_invariant`. -/
theorem redirect_counter_invariant_w :
    (doReq trivialCollab selfServer 3 ("GET".toList) loopURL PayloadM.none
        [defaultOption]).2.currRedirect ≤ (optionsNew [defaultOption]).maxRedirects ∧
    optionsNew [defaultOption] = defaultOption :=
  ⟨redirect_counter_invariant.1 trivialCollab selfServer 3 ("GET".toList) loopURL
      PayloadM.none [defaultOption] (by decide),
   redirect_counter_invariant.2 defaultOption rfl⟩

/-! ## C8: idempotence of URL normalisation -/

theorem dropWhile_head_false (p : Char → Bool) :
    ∀ (l : Str) (c : Char) (t : Str), l.dropWhile p = c :: t → p c = false := by
  intro l
  induction l with
  | nil => intro c t h; simp [List.dropWhile] at h
  | cons a l ih =>
      intro c t h
      by_cases hp : p a
      · rw [List.dropWhile] at h
        rw [hp] at h
        exact ih c t h
      · rw [List.dropWhile] at h
        rw [Bool.of_not_eq_true hp] at h
        cases h
        exact Bool.of_not_eq_true hp

theorem dropWhile_idem (p : Char → Bool) (l : Str) :
    (l.dropWhile p).dropWhile p = l.dropWhile p := by
  cases h : l.dropWhile p with
  | nil => rfl
  | cons c t =>
      have hc := dropWhile_head_false p l c t h
      rw [List.dropWhile, hc]

theorem dropWhile_suffix_ex (p : Char → Bool) (l : Str) :
    ∃ pre, pre ++ l.dropWhile p = l := by
  induction l with
  | nil => exact ⟨[], rfl⟩
  | cons a l ih =>
      by_cases hp : p a
      · obtain ⟨pre, hpre⟩ := ih
        refine ⟨a :: pre, ?_⟩
        rw [List.dropWhile, hp]
        simpa using hpre
      · refine ⟨[], ?_⟩
        rw [List.dropWhile, Bool.of_not_eq_true hp]
        rfl

theorem goTrimSpace_idem (x : Str) : goTrimSpace (goTrimSpace x) = goTrimSpace x := by
  have h1 : (goTrimSpace x).dropWhile goIsSpace = goTrimSpace x := by
    cases hc : goTrimSpace x with
    | nil => rfl
    | cons c t =>
        obtain ⟨pre, hpre⟩ := dropWhile_suffix_ex goIsSpace (x.dropWhile goIsSpace).reverse
        have hAt : goTrimSpace x ++ pre.reverse = x.dropWhile goIsSpace := by
          have h2 := congrArg List.reverse hpre
          simpa [goTrimSpace] using h2
        have hAc : x.dropWhile goIsSpace = c :: (t ++ pre.reverse) := by
          rw [← hAt, hc]
          simp
        have hfalse : goIsSpace c = false :=
          dropWhile_head_false goIsSpace x c (t ++ pre.reverse) hAc
        rw [List.dropWhile, hfalse]
  show (((goTrimSpace x).dropWhile goIsSpace).reverse.dropWhile goIsSpace).reverse = goTrimSpace x
  rw [h1]
  have h2 : (goTrimSpace x).reverse = (x.dropWhile goIsSpace).reverse.dropWhile goIsSpace := by
    show (((x.dropWhile goIsSpace).reverse.dropWhile goIsSpace).reverse).reverse = _
    simp
  rw [h2, dropWhile_idem, ← h2]
  simp

theorem goTrimSpace_https_append (x : Str) :
    goTrimSpace ("https://".toList ++ goTrimSpace x) = "https://".toList ++ goTrimSpace x := by
  have hh : goIsSpace 'h' = false := by decide
  have hdrop : ("https://".toList ++ goTrimSpace x).dropWhile goIsSpace =
      "https://".toList ++ goTrimSpace x := by
    show List.dropWhile goIsSpace ('h' :: ("ttps://".toList ++ goTrimSpace x)) = _
    rw [List.dropWhile, hh]
    rfl
  have hu0rev : (goTrimSpace x).reverse = (x.dropWhile goIsSpace).reverse.dropWhile goIsSpace := by
    show (((x.dropWhile goIsSpace).reverse.dropWhile goIsSpace).reverse).reverse = _
    simp
  have hrev : ("https://".toList ++ goTrimSpace x).reverse =
      (goTrimSpace x).reverse ++ ("https://".toList).reverse := by simp
  have hdrop2 : ((goTrimSpace x).reverse ++ ("https://".toList).reverse).dropWhile goIsSpace =
      (goTrimSpace x).reverse ++ ("https://".toList).reverse := by
    cases hc : (goTrimSpace x).reverse with
    | nil => decide
    | cons c t =>
        have hfalse : goIsSpace c = false :=
          dropWhile_head_false goIsSpace (x.dropWhile goIsSpace).reverse c t (by rw [← hu0rev, hc])
        show List.dropWhile goIsSpace (c :: (t ++ ("https://".toList).reverse)) = _
        rw [List.dropWhile, hfalse]
        rfl
  show (((("https://".toList ++ goTrimSpace x).dropWhile goIsSpace).reverse).dropWhile goIsSpace).reverse = _
  rw [hdrop, hrev, hdrop2, ← hrev]
  simp

theorem goStarts_nil_pat (s : Str) : goStarts s [] = true := by
  cases s <;> rfl

theorem goStarts_append_self (pfx w : Str) : goStarts (pfx ++ w) pfx = true := by
  induction pfx with
  | nil => exact goStarts_nil_pat w
  | cons c t ih => simp [goStarts, ih]

theorem goStarts_append_of (a b pat : Str) (h : goStarts a pat = true) :
    goStarts (a ++ b) pat = true := by
  induction pat generalizing a with
  | nil => exact goStarts_nil_pat (a ++ b)
  | cons q qs ih =>
      cases a with
      | nil => simp [goStarts] at h
      | cons c t =>
          simp [goStarts] at h ⊢
          exact ⟨h.1, ih t h.2⟩

theorem goSubstr_nil_pat (s : Str) : goSubstr s [] = true := by
  cases s <;> simp [goSubstr, goStarts]

theorem goSubstr_append (a b pat : Str) (h : goSubstr a pat = true) :
    goSubstr (a ++ b) pat = true := by
  induction a with
  | nil =>
      cases pat with
      | nil => simpa using goSubstr_nil_pat b
      | cons q qs => simp [goSubstr] at h
  | cons c t ih =>
      simp [goSubstr] at h ⊢
      rcases h with h | h
      · exact Or.inl (goStarts_append_of (c :: t) b pat h)
      · exact Or.inr (ih h)

theorem normaliseURL_fixed (parseOk : Str → Bool) (s : Str)
    (ht : goTrimSpace s = s)
    (hcolon : (goSubstr s ([':']) && !goSubstr s ([':', '/', '/'])) = false)
    (hpre : (!goStarts s ("http://".toList) && !goStarts s ("https://".toList)) = false)
    (hp : parseOk s = true) :
    normaliseURL parseOk s [] = .ok s := by
  unfold normaliseURL
  simp only [ht, hcolon, hpre, hp, Bool.false_eq_true, reduceIte, ne_eq, not_true_eq_false,
    if_false]

/-- C8 (amended): URL normalisation is idempotent whenever no
protocol-scheme override is configured: any successful output normalises
to itself (the output always carries an http(s) scheme, is trimmed, and
passes the colon check, so a second pass leaves it untouched). -/
theorem normaliseURL_idempotent_no_scheme (parseOk : Str → Bool) (u s : Str)
    (h : normaliseURL parseOk u [] = .ok s) :
    normaliseURL parseOk s [] = .ok s := by
  unfold normaliseURL at h
  by_cases h1 : (goSubstr (goTrimSpace u) ([':']) && !goSubstr (goTrimSpace u) ([':', '/', '/'])) = true
  · rw [if_pos h1] at h
    exact absurd h (by simp)
  · rw [if_neg h1] at h
    simp only [ne_eq, not_true_eq_false, if_false, reduceIte] at h
    set u0 := goTrimSpace u with hu0
    by_cases hcond : (!goStarts u0 ("http://".toList) && !goStarts u0 ("https://".toList)) = true
    · simp only [hcond, reduceIte] at h
      by_cases hp : parseOk ("https://".toList ++ u0) = true
      · rw [if_pos hp] at h
        have hs : "https://".toList ++ u0 = s := by simpa using h
        subst hs
        refine normaliseURL_fixed parseOk _ ?_ ?_ ?_ hp
        · rw [hu0]
          exact goTrimSpace_https_append u
        · have hsub : goSubstr ("https://".toList ++ u0) ([':', '/', '/']) = true :=
            goSubstr_append ("https://".toList) u0 ([':', '/', '/']) (by decide)
          rw [hsub]
          simp
        · have hstarts : goStarts ("https://".toList ++ u0) ("https://".toList) = true :=
            goStarts_append_self ("https://".toList) u0
          rw [hstarts]
          simp
      · rw [if_neg hp] at h
        exact absurd h (by simp)
    · have hcf : (!goStarts u0 ("http://".toList) && !goStarts u0 ("https://".toList)) = false := by
        simpa only [Bool.not_eq_true] using hcond
      simp only [hcf, Bool.false_eq_true, reduceIte] at h
      by_cases hp : parseOk u0 = true
      · rw [if_pos hp] at h
        have hs : u0 = s := by simpa using h
        subst hs
        refine normaliseURL_fixed parseOk _ ?_ ?_ hcf hp
        · rw [hu0]
          exact goTrimSpace_idem u
        · simpa only [Bool.not_eq_true] using h1
      · rw [if_neg hp] at h
        exact absurd h (by simp)

/-- C8 (counterexample): with a scheme override configured (`"http"`), the
URL `"http://http://https://b"` — which already bears the normalised
override scheme `"http://"` as a prefix — normalises to
`"http://https://b"`, but normalising that output again yields
`"http://b"`: the override path strips one `http://` then one `https://`
prefix per pass, so normalisation is not idempotent under an override. -/
theorem normaliseURL_override_not_idempotent :
    goStarts ("http://http://https://b".toList) ("http://".toList) = true ∧
    normaliseURL (fun _ => true) ("http://http://https://b".toList) ("http".toList) =
      .ok ("http://https://b".toList) ∧
    normaliseURL (fun _ => true) ("http://https://b".toList) ("http".toList) =
      .ok ("http://b".toList) ∧
    ("http://b".toList : Str) ≠ ("http://https://b".toList : Str) :=
  ⟨by decide, by decide, by decide, by decide⟩

/-- Closed instance of `normaliseURL_idempotent_no_scheme`. -/
theorem normaliseURL_idempotent_no_scheme_w :
    normaliseURL (fun _ => true) ("https://example.com".toList) [] =
      .ok ("https://example.com".toList) :=
  normaliseURL_idempotent_no_scheme (fun _ => true) ("example.com".toList)
    ("https://example.com".toList) rfl

/-- Closed instance of `doReqStep_custom_missing_hook`. -/
theorem doReqStep_custom_missing_hook_w :
    (doReqStep trivialCollab okServer (fun _ _ _ o => (.outOfFuel, optionsNew o))
        ("POST".toList) ("https://x.test".toList) (PayloadM.bytes [1, 2, 3]) [optC6]).1.errOf =
        some (.transport (.bodyError ("unsupported compression type: custom".toList))) :=
  (doReqStep_custom_missing_hook trivialCollab okServer
    (fun _ _ _ o => (.outOfFuel, optionsNew o)) ("https://x.test".toList)
    ("https://x.test".toList) [optC6] [1, 2, 3] rfl rfl rfl rfl).1

end HttpClient
